import Mathlib

/-!
Shallow embedding of the reservation consistency engine of the
`ai_reservation_system` repository (src/reservation_service.py,
src/models.py, src/timezone_utils.py).

Instants are modelled as natural numbers of minutes: a calendar date is
mapped to a day number by the standard civil-calendar algorithm, and an
instant is `day * 1440 + hour * 60 + minute`. All stored datetimes are
JST-anchored in the source, so the fixed offset cancels and plays no role
in comparisons; `convert_to_jst` is the identity on instants produced by
`parse_datetime_jst`.
-/

namespace AIRes

/-- Modelled from the spec: the configuration constants `STARTHOUR` and
`ENDHOUR` live in `config.py`, which is not part of the sources at hand;
the spec's concrete scenario fixes business hours 07:00-22:00 and the
validation error message in `reservation_service.py` confirms 7 and 22. -/
def STARTHOUR : Nat := 7

/-- Modelled from the spec: closing hour, see `STARTHOUR`. -/
def ENDHOUR : Nat := 22

/-- Numeric value of a digit character. -/
def digitVal (c : Char) : Nat := c.toNat - 48

/-- Greedy scan of one or two digit characters, as CPython's `strptime`
field regexes do for `%H`, `%M`, `%m`, `%d` (range checks happen after). -/
def takeDigits2 : List Char → Option (Nat × List Char)
  | c1 :: c2 :: rest =>
    if c1.isDigit then
      if c2.isDigit then some (10 * digitVal c1 + digitVal c2, rest)
      else some (digitVal c1, c2 :: rest)
    else none
  | [c1] => if c1.isDigit then some (digitVal c1, []) else none
  | [] => none

/-- Exactly four digits, as `strptime`'s `%Y` requires. -/
def takeDigits4 : List Char → Option (Nat × List Char)
  | c1 :: c2 :: c3 :: c4 :: rest =>
    if c1.isDigit && c2.isDigit && c3.isDigit && c4.isDigit then
      some (1000 * digitVal c1 + 100 * digitVal c2 + 10 * digitVal c3 + digitVal c4, rest)
    else none
  | _ => none

/-- `datetime.strptime(s, "%H:%M").time()` as minutes-of-day:
one-or-two-digit hour `< 24`, literal colon, one-or-two-digit minute
`< 60`, nothing left over. -/
def parseHM (s : String) : Option (Nat × Nat) :=
  match takeDigits2 s.data with
  | none => none
  | some (h, rest) =>
    match rest with
    | ':' :: rest2 =>
      match takeDigits2 rest2 with
      | none => none
      | some (m, rest3) =>
        if rest3 = [] ∧ h < 24 ∧ m < 60 then some (h, m) else none
    | _ => none

/-- Minutes-of-day of a parsed `HH:MM` time. -/
def todOf (t : Nat × Nat) : Nat := t.1 * 60 + t.2

/-- Gregorian leap year. -/
def isLeap (y : Nat) : Bool := y % 4 = 0 && (y % 100 ≠ 0 || y % 400 = 0)

/-- Days in a month of a given year. -/
def daysInMonth (y m : Nat) : Nat :=
  if m = 2 then (if isLeap y then 29 else 28)
  else if m = 4 ∨ m = 6 ∨ m = 9 ∨ m = 11 then 30
  else 31

/-- Day number of a civil date (days since 0000-03-01), for `y ≥ 1`. -/
def daysFromCivil (y m d : Nat) : Nat :=
  let y' := if m ≤ 2 then y - 1 else y
  let era := y' / 400
  let yoe := y' % 400
  let mp := (m + 9) % 12
  let doy := (153 * mp + 2) / 5 + (d - 1)
  let doe := yoe * 365 + yoe / 4 - yoe / 100 + doy
  era * 146097 + doe

/-- `datetime.strptime(s, "%Y-%m-%d")` as a day number: four-digit year
`≥ 1`, month `1..12`, day valid for that month, nothing left over. -/
def parseDate (s : String) : Option Nat :=
  match takeDigits4 s.data with
  | none => none
  | some (y, rest) =>
    match rest with
    | '-' :: rest2 =>
      match takeDigits2 rest2 with
      | none => none
      | some (m, rest3) =>
        match rest3 with
        | '-' :: rest4 =>
          match takeDigits2 rest4 with
          | none => none
          | some (d, rest5) =>
            if rest5 = [] ∧ 1 ≤ y ∧ 1 ≤ m ∧ m ≤ 12 ∧ 1 ≤ d ∧ d ≤ daysInMonth y m then
              some (daysFromCivil y m d)
            else none
        | _ => none
    | _ => none

/-- `parse_datetime_jst(date_str, time_str)`: combined instant in
minutes, `none` models the `ValueError` raised by `strptime`. -/
def parse_datetime_jst (dateStr timeStr : String) : Option Nat :=
  match parseDate dateStr, parseHM timeStr with
  | some day, some t => some (day * 1440 + todOf t)
  | _, _ => none

/-- Two zero-padded digit characters, as `%02d` / `strftime` emit for
values below 100. -/
def pad2 (n : Nat) : List Char := [Char.ofNat (48 + n / 10), Char.ofNat (48 + n % 10)]

/-- `strftime("%H:%M")` on an hour/minute pair. -/
def formatHM (h m : Nat) : String := ⟨pad2 h ++ ':' :: pad2 m⟩

/-- `format_jst_time(dt)`: the `HH:MM` rendering of an instant's
time-of-day. -/
def format_jst_time (i : Nat) : String := formatHM (i % 1440 / 60) (i % 1440 % 60)

/-- A row of the `rooms` table. -/
structure Room where
  id : Nat
  name : String
  capacity : Nat
deriving DecidableEq, Repr

/-- A row of the `reservations` table. -/
structure Reservation where
  id : Nat
  room_id : Nat
  user_name : String
  start_time : Nat
  end_time : Nat
deriving DecidableEq, Repr

/-- The persistent state: the reservation rows in insertion order, the
autoincrement counter, and the (read-only) room catalog. -/
structure Store where
  reservations : List Reservation
  nextId : Nat
  rooms : List Room
deriving DecidableEq, Repr

/-- `ReservationService._check_conflict`: is there a reservation on this
room with `start_time < new_end` and `end_time > new_start`? -/
def check_conflict (resvs : List Reservation) (room_id new_start new_end : Nat) : Bool :=
  resvs.any fun r => r.room_id == room_id && r.start_time < new_end && r.end_time > new_start

/-- Outcome of `_validate_reservation_data`; `vformat` stands for the
`ValueError` that `strptime` raises inside it (caught by the caller). -/
inductive ValidationOutcome where
  | vmissing | vformat | vhours | vordering | vok
deriving DecidableEq, Repr

/-- `ReservationService._validate_reservation_data`: presence check
(Python truthiness: zero id or empty string fails), parse of both times,
business-hours bound, then ordering. Time objects compare as
minutes-of-day (lexicographic on (hour, minute) with minute < 60). -/
def validate_reservation_data (room_id : Nat) (date start_time end_time : String) :
    ValidationOutcome :=
  if room_id = 0 ∨ date = "" ∨ start_time = "" ∨ end_time = "" then .vmissing
  else
    match parseHM start_time, parseHM end_time with
    | some ts, some te =>
      if todOf ts < STARTHOUR * 60 ∨ todOf te > ENDHOUR * 60 then .vhours
      else if todOf ts ≥ todOf te then .vordering
      else .vok
    | _, _ => .vformat

/-- Error kinds of the service operations, identified by the distinct
error messages the source returns. -/
inductive SvcError where
  | missingField   -- 必須項目が不足しています
  | formatErr      -- 日時の形式が正しくありません / 日付の形式が正しくありません
  | outOfHours     -- 7時から22時の間で予約してください / 業務時間外
  | ordering       -- 終了時刻は開始時刻より後に設定してください
  | conflict       -- 指定された時間帯は既に予約されています
  | notFound       -- 予約が見つかりません
  | durationErr    -- 利用時間は0分より大きくなければなりません
deriving DecidableEq, Repr

/-- The reservation payload of a successful create. -/
structure CreatedInfo where
  id : Nat
  room_name : String
  room_id : Nat
  date : String
  start_time : String
  end_time : String
  user_name : String
deriving DecidableEq, Repr

/-- `ReservationService.create_reservation`: validate, parse both
datetimes, check conflict, insert (the row is appended and the
autoincrement id assigned), then look the room up for its display name —
`"Unknown"` when the id matches no room. -/
def create_reservation (st : Store) (room_id : Nat)
    (user_name date start_time end_time : String) :
    Store × Except SvcError CreatedInfo :=
  match validate_reservation_data room_id date start_time end_time with
  | .vmissing => (st, .error .missingField)
  | .vformat => (st, .error .formatErr)
  | .vhours => (st, .error .outOfHours)
  | .vordering => (st, .error .ordering)
  | .vok =>
    match parse_datetime_jst date start_time, parse_datetime_jst date end_time with
    | some s, some e =>
      if check_conflict st.reservations room_id s e then (st, .error .conflict)
      else
        let res : Reservation :=
          { id := st.nextId, room_id := room_id, user_name := user_name,
            start_time := s, end_time := e }
        let st' : Store :=
          { st with reservations := st.reservations ++ [res], nextId := st.nextId + 1 }
        let roomName :=
          match st.rooms.find? (fun room => room.id == room_id) with
          | some room => room.name
          | none => "Unknown"
        (st', .ok { id := res.id, room_name := roomName, room_id := room_id,
                    date := date, start_time := start_time, end_time := end_time,
                    user_name := user_name })
    | _, _ => (st, .error .formatErr)

/-- `ReservationService.cancel_reservation`: delete the first row with
the given id, `NotFoundError` when none exists. -/
def cancel_reservation (st : Store) (reservation_id : Nat) :
    Store × Except SvcError Nat :=
  match st.reservations.find? (fun r => r.id == reservation_id) with
  | none => (st, .error .notFound)
  | some _ =>
    ({ st with reservations := st.reservations.eraseP (fun r => r.id == reservation_id) },
     .ok reservation_id)

/-- One line of `get_reservations_by_date`'s response. -/
structure DayEntry where
  id : Nat
  room_id : Nat
  room_name : String
  user_name : String
  start_time : String
  end_time : String
  date : String
deriving DecidableEq, Repr

/-- `ReservationService.get_reservations_by_date`: reservations whose
start lies in `[day, day+1)` joined (inner) with their room, in store
order — the query has no `order_by`. -/
def get_reservations_by_date (st : Store) (date : String) :
    Except SvcError (List DayEntry) :=
  match parse_datetime_jst date "00:00" with
  | none => .error .formatErr
  | some target =>
    .ok <| (st.reservations.filter fun r =>
        decide (target ≤ r.start_time) && decide (r.start_time < target + 1440) &&
        (st.rooms.find? (fun room => room.id == r.room_id)).isSome).map fun r =>
      { id := r.id, room_id := r.room_id,
        room_name := match st.rooms.find? (fun room => room.id == r.room_id) with
                     | some room => room.name
                     | none => "Unknown",
        user_name := r.user_name,
        start_time := format_jst_time r.start_time,
        end_time := format_jst_time r.end_time,
        date := date }

/-- The `{id, name}` projection of a room returned by the availability
query. -/
structure RoomInfo where
  id : Nat
  name : String
deriving DecidableEq, Repr

/-- `ORDER BY rooms.id`: sort the catalog ascending by id. -/
def sortRoomsById (l : List Room) : List Room :=
  l.insertionSort fun a b => a.id ≤ b.id

/-- `ReservationService.find_available_rooms_by_start_datetime_and_duration`:
duration check, parse, business-hours check on the *time-of-day* of start
and of `start + duration` (which wraps past midnight), dead end-after-start
check, then the rooms with no overlapping reservation, ascending by id. -/
def find_available_rooms (st : Store) (date start_time : String)
    (duration_minutes : Int) : Except SvcError (List RoomInfo) :=
  if duration_minutes ≤ 0 then .error .durationErr
  else
    match parse_datetime_jst date start_time with
    | none => .error .formatErr
    | some s =>
      let e := s + duration_minutes.toNat
      if s % 1440 < STARTHOUR * 60 ∨ e % 1440 > ENDHOUR * 60 then .error .outOfHours
      else if ¬ (e > s) then .error .ordering
      else
        .ok <| ((sortRoomsById st.rooms).filter fun room =>
            !(st.reservations.any fun r =>
              r.room_id == room.id && r.start_time < e && r.end_time > s)).map
          fun room => { id := room.id, name := room.name }

/-- A sequential operation against the store. -/
inductive Op where
  | create (room_id : Nat) (user_name date start_time end_time : String)
  | cancel (reservation_id : Nat)

/-- Apply one operation, keeping only the state. -/
def applyOp (st : Store) : Op → Store
  | .create room_id u d s e => (create_reservation st room_id u d s e).1
  | .cancel i => (cancel_reservation st i).1

/-- Run a sequence of operations from a given state. -/
def runOps (ops : List Op) (st : Store) : Store := ops.foldl applyOp st

/-- The empty store over a given catalog (autoincrement starts at 1). -/
def emptyStore (rooms : List Room) : Store := ⟨[], 1, rooms⟩

/-- A well-formed `HH:MM` string: two digit characters, a colon, two digit
characters, hour below 24 and minute below 60. -/
def wellFormedHHMM (s : String) : Bool :=
  match s.data with
  | [a, b, c, d, e] =>
    a.isDigit && b.isDigit && c == ':' && d.isDigit && e.isDigit &&
    decide (10 * digitVal a + digitVal b < 24) && decide (10 * digitVal d + digitVal e < 60)
  | _ => false

/-- The sample rooms of the spec's concrete scenario. -/
def roomA : Room := ⟨1, "A", 4⟩

/-- Second sample room. -/
def roomB : Room := ⟨2, "B", 6⟩

lemma isDigit_toNat {c : Char} (h : c.isDigit = true) : 48 ≤ c.toNat ∧ c.toNat ≤ 57 := by
  simp only [Char.isDigit, Bool.and_eq_true, decide_eq_true_eq] at h
  obtain ⟨h1, h2⟩ := h
  rw [ge_iff_le, UInt32.le_def, BitVec.le_def] at h1
  rw [UInt32.le_def, BitVec.le_def] at h2
  exact ⟨h1, h2⟩

lemma ofNat_digitVal {c : Char} (h : c.isDigit = true) : Char.ofNat (48 + digitVal c) = c := by
  have hb := isDigit_toNat h
  have he : 48 + digitVal c = c.toNat := by unfold digitVal; omega
  rw [he, Char.ofNat_toNat]

lemma check_conflict_eq_true {resvs : List Reservation} {room_id s e : Nat} :
    check_conflict resvs room_id s e = true ↔
      ∃ r ∈ resvs, r.room_id = room_id ∧ r.start_time < e ∧ s < r.end_time := by
  simp [check_conflict, List.any_eq_true, and_assoc]

lemma check_conflict_eq_false {resvs : List Reservation} {room_id s e : Nat} :
    check_conflict resvs room_id s e = false ↔
      ∀ r ∈ resvs, r.room_id = room_id → e ≤ r.start_time ∨ r.end_time ≤ s := by
  rw [← Bool.not_eq_true, check_conflict_eq_true]
  constructor
  · intro h r hr hroom
    by_contra hcon
    push_neg at hcon
    exact h ⟨r, hr, hroom, by omega, by omega⟩
  · rintro h ⟨r, hr, hroom, h1, h2⟩
    rcases h r hr hroom with h3 | h3 <;> omega

/-- C4: the conflict detector reports a conflict iff some existing
reservation of the room satisfies `existing.start < candidate_end ∧
existing.end > candidate_start`; consequently an existing reservation
ending exactly at the candidate's start (or starting exactly at its end)
never conflicts, and in the spec's scenario the 09:00-10:00 and
10:00-11:00 bookings on the same room both succeed. -/
theorem conflict_predicate_characterization :
    (∀ (resvs : List Reservation) (room_id s e : Nat),
      check_conflict resvs room_id s e = true ↔
        ∃ r ∈ resvs, r.room_id = room_id ∧ r.start_time < e ∧ s < r.end_time) ∧
    (∀ (r : Reservation) (e : Nat), check_conflict [r] r.room_id r.end_time e = false) ∧
    (∀ (r : Reservation) (s : Nat), check_conflict [r] r.room_id s r.start_time = false) ∧
    ((create_reservation (emptyStore [roomA]) 1 "u" "2025-10-24" "09:00" "10:00").2 =
      .ok ⟨1, "A", 1, "2025-10-24", "09:00", "10:00", "u"⟩) ∧
    ((create_reservation
        (create_reservation (emptyStore [roomA]) 1 "u" "2025-10-24" "09:00" "10:00").1
        1 "u" "2025-10-24" "10:00" "11:00").2 =
      .ok ⟨2, "A", 1, "2025-10-24", "10:00", "11:00", "u"⟩) := by
  refine ⟨fun _ _ _ _ => check_conflict_eq_true, ?_, ?_, rfl, rfl⟩
  · intro r e
    simp [check_conflict]
  · intro r s
    simp [check_conflict]

/-- C9: round-trip — for every well-formed date string and every
well-formed `HH:MM` time string `t`, formatting the instant produced by
parsing returns `t` again: `format_jst_time (parse_datetime_jst d t) = t`. -/
theorem time_roundtrip (d t : String) (day : Nat)
    (hd : parseDate d = some day) (ht : wellFormedHHMM t = true) :
    Option.map format_jst_time (parse_datetime_jst d t) = some t := by
  obtain ⟨data⟩ := t
  rcases data with _ | ⟨a, _ | ⟨b, _ | ⟨c, _ | ⟨d2, _ | ⟨e2, _ | ⟨f, rest⟩⟩⟩⟩⟩⟩ <;>
    simp only [wellFormedHHMM, Bool.and_eq_true, beq_iff_eq, decide_eq_true_eq, and_assoc] at ht <;>
    try exact Bool.noConfusion ht
  obtain ⟨ha, hb, hcolon, hd2, he2, h24, h60⟩ := ht
  subst hcolon
  obtain ⟨ha1, ha2⟩ := isDigit_toNat ha
  obtain ⟨hb1, hb2⟩ := isDigit_toNat hb
  obtain ⟨hd1, hd2'⟩ := isDigit_toNat hd2
  obtain ⟨he1, he2'⟩ := isDigit_toNat he2
  have hparse : parseHM ⟨[a, b, ':', d2, e2]⟩ =
      some (10 * digitVal a + digitVal b, 10 * digitVal d2 + digitVal e2) := by
    simp [parseHM, takeDigits2, ha, hb, hd2, he2, h24, h60]
  simp only [parse_datetime_jst, hd, hparse, Option.map_some']
  have htod : todOf (10 * digitVal a + digitVal b, 10 * digitVal d2 + digitVal e2) =
      (10 * digitVal a + digitVal b) * 60 + (10 * digitVal d2 + digitVal e2) := rfl
  rw [htod]
  unfold format_jst_time formatHM pad2
  have hmod : (day * 1440 + ((10 * digitVal a + digitVal b) * 60 +
      (10 * digitVal d2 + digitVal e2))) % 1440 =
      (10 * digitVal a + digitVal b) * 60 + (10 * digitVal d2 + digitVal e2) := by
    unfold digitVal at *
    omega
  rw [hmod]
  have h1 : ((10 * digitVal a + digitVal b) * 60 + (10 * digitVal d2 + digitVal e2)) / 60 =
      10 * digitVal a + digitVal b := by unfold digitVal at *; omega
  have h2 : ((10 * digitVal a + digitVal b) * 60 + (10 * digitVal d2 + digitVal e2)) % 60 =
      10 * digitVal d2 + digitVal e2 := by unfold digitVal at *; omega
  rw [h1, h2]
  have qa : (10 * digitVal a + digitVal b) / 10 = digitVal a := by unfold digitVal at *; omega
  have qb : (10 * digitVal a + digitVal b) % 10 = digitVal b := by unfold digitVal at *; omega
  have qd : (10 * digitVal d2 + digitVal e2) / 10 = digitVal d2 := by unfold digitVal at *; omega
  have qe : (10 * digitVal d2 + digitVal e2) % 10 = digitVal e2 := by unfold digitVal at *; omega
  rw [qa, qb, qd, qe, ofNat_digitVal ha, ofNat_digitVal hb, ofNat_digitVal hd2, ofNat_digitVal he2]
  rfl

/-- Witness for `time_roundtrip`: the concrete date 2025-10-24 and time
09:30 satisfy the hypotheses, and the round-trip returns "09:30". -/
theorem time_roundtrip_witness :
    parseDate "2025-10-24" = some 739853 ∧ wellFormedHHMM "09:30" = true ∧
    Option.map format_jst_time (parse_datetime_jst "2025-10-24" "09:30") = some "09:30" :=
  ⟨by decide, by decide, time_roundtrip "2025-10-24" "09:30" 739853 (by decide) (by decide)⟩

lemma parseHM_bounds {s : String} {t : Nat × Nat} (h : parseHM s = some t) :
    t.1 < 24 ∧ t.2 < 60 := by
  unfold parseHM at h
  repeat' split at h
  all_goals try cases h
  all_goals simp_all

lemma parseHM_ne_empty {s : String} {t : Nat × Nat} (h : parseHM s = some t) : s ≠ "" := by
  intro he
  subst he
  rw [show parseHM "" = none from rfl] at h
  cases h

lemma validate_vok {rid : Nat} {d s e : String}
    (h : validate_reservation_data rid d s e = .vok) :
    rid ≠ 0 ∧ d ≠ "" ∧ ∃ ts te, parseHM s = some ts ∧ parseHM e = some te ∧
      STARTHOUR * 60 ≤ todOf ts ∧ todOf te ≤ ENDHOUR * 60 ∧ todOf ts < todOf te := by
  unfold validate_reservation_data at h
  split at h
  · exact absurd h (by simp)
  next hpres =>
    push_neg at hpres
    obtain ⟨h0, hd, -, -⟩ := hpres
    split at h
    next ts te hs he =>
      refine ⟨h0, hd, ts, te, hs, he, ?_⟩
      split at h
      · exact absurd h (by simp)
      · split at h
        · exact absurd h (by simp)
        next h1 h2 =>
          push_neg at h1 h2
          exact ⟨by omega, by omega, by omega⟩
    next hother => exact absurd h (by simp)

lemma create_reservation_fst (st : Store) (rid : Nat) (u d s e : String) :
    (create_reservation st rid u d s e).1 = st ∨
    ∃ day ts te, parseDate d = some day ∧ parseHM s = some ts ∧ parseHM e = some te ∧
      STARTHOUR * 60 ≤ todOf ts ∧ todOf te ≤ ENDHOUR * 60 ∧ todOf ts < todOf te ∧
      check_conflict st.reservations rid (day * 1440 + todOf ts) (day * 1440 + todOf te) = false ∧
      (create_reservation st rid u d s e).1 =
        { st with
            reservations := st.reservations ++
              [⟨st.nextId, rid, u, day * 1440 + todOf ts, day * 1440 + todOf te⟩],
            nextId := st.nextId + 1 } := by
  unfold create_reservation
  rcases hv : validate_reservation_data rid d s e with _ | _ | _ | _ | _
  case vmissing => exact Or.inl rfl
  case vformat => exact Or.inl rfl
  case vhours => exact Or.inl rfl
  case vordering => exact Or.inl rfl
  case vok =>
    obtain ⟨-, -, ts, te, hs, he, hlo, hhi, hord⟩ := validate_vok hv
    rcases hd : parseDate d with _ | day
    · have hps : parse_datetime_jst d s = none := by simp [parse_datetime_jst, hd]
      rw [hps]
      exact Or.inl rfl
    · have hps : parse_datetime_jst d s = some (day * 1440 + todOf ts) := by
        simp [parse_datetime_jst, hd, hs]
      have hpe : parse_datetime_jst d e = some (day * 1440 + todOf te) := by
        simp [parse_datetime_jst, hd, he]
      rw [hps, hpe]
      rcases hc : check_conflict st.reservations rid (day * 1440 + todOf ts)
          (day * 1440 + todOf te) with _ | _
      · refine Or.inr ⟨day, ts, te, rfl, hs, he, hlo, hhi, hord, hc, ?_⟩
        simp [hc]
      · left
        simp [hc]

/-- C1: no double-booking — in every store state reachable from the
empty store by any sequence of sequential create and cancel operations,
any two distinct reservations on the same room satisfy
`R1.end <= R2.start ∨ R2.end <= R1.start` (half-open non-overlap). -/
theorem no_double_booking (rooms : List Room) (ops : List Op) :
    (runOps ops (emptyStore rooms)).reservations.Pairwise
      (fun r1 r2 => r1.room_id = r2.room_id →
        r1.end_time ≤ r2.start_time ∨ r2.end_time ≤ r1.start_time) := by
  have key : ∀ (l : List Op) (st : Store),
      st.reservations.Pairwise
        (fun r1 r2 => r1.room_id = r2.room_id →
          r1.end_time ≤ r2.start_time ∨ r2.end_time ≤ r1.start_time) →
      (runOps l st).reservations.Pairwise
        (fun r1 r2 => r1.room_id = r2.room_id →
          r1.end_time ≤ r2.start_time ∨ r2.end_time ≤ r1.start_time) := by
    intro l
    induction l with
    | nil => exact fun st h => h
    | cons op rest ih =>
      intro st h
      have hfold : runOps (op :: rest) st = runOps rest (applyOp st op) := rfl
      rw [hfold]
      apply ih
      cases op with
      | create rid u d s e =>
        show ((create_reservation st rid u d s e).1).reservations.Pairwise _
        rcases create_reservation_fst st rid u d s e with
          heq | ⟨day, ts, te, hd, hs, he, hlo, hhi, hord, hc, heq⟩
        · rw [heq]; exact h
        · rw [heq]
          simp only [List.pairwise_append, List.pairwise_cons, List.Pairwise.nil]
          refine ⟨h, by simp, ?_⟩
          intro a ha b hb
          simp only [List.mem_singleton] at hb
          subst hb
          intro hroom
          rcases check_conflict_eq_false.mp hc a ha hroom with h1 | h1
          · right; exact h1
          · left; exact h1
      | cancel i =>
        show ((cancel_reservation st i).1).reservations.Pairwise _
        unfold cancel_reservation
        split
        · exact h
        · exact List.Pairwise.sublist (List.eraseP_sublist _) h
  exact key ops (emptyStore rooms) (by simp [emptyStore])

/-- C10: every reservation persisted by a successful create lies within
one calendar day — start and end fall on the same day number and
`start < end` — so no reservation spans midnight. -/
theorem reservations_within_one_day (rooms : List Room) (ops : List Op) :
    ∀ r ∈ (runOps ops (emptyStore rooms)).reservations,
      r.start_time / 1440 = r.end_time / 1440 ∧ r.start_time < r.end_time := by
  have key : ∀ (l : List Op) (st : Store),
      (∀ r ∈ st.reservations,
        r.start_time / 1440 = r.end_time / 1440 ∧ r.start_time < r.end_time) →
      ∀ r ∈ (runOps l st).reservations,
        r.start_time / 1440 = r.end_time / 1440 ∧ r.start_time < r.end_time := by
    intro l
    induction l with
    | nil => exact fun st h => h
    | cons op rest ih =>
      intro st h
      have hfold : runOps (op :: rest) st = runOps rest (applyOp st op) := rfl
      rw [hfold]
      apply ih
      cases op with
      | create rid u d s e =>
        show ∀ r ∈ ((create_reservation st rid u d s e).1).reservations, _
        rcases create_reservation_fst st rid u d s e with
          heq | ⟨day, ts, te, hd, hs, he, hlo, hhi, hord, hc, heq⟩
        · rw [heq]; exact h
        · rw [heq]
          intro r hr
          simp only [List.mem_append, List.mem_singleton] at hr
          rcases hr with hr | hr
          · exact h r hr
          · subst hr
            have hb1 := parseHM_bounds hs
            have hb2 := parseHM_bounds he
            have htodlt : todOf ts < 1440 := by
              unfold todOf; omega
            have htodlt2 : todOf te < 1440 := by
              unfold todOf; omega
            constructor
            · show (day * 1440 + todOf ts) / 1440 = (day * 1440 + todOf te) / 1440
              omega
            · show day * 1440 + todOf ts < day * 1440 + todOf te
              omega
      | cancel i =>
        show ∀ r ∈ ((cancel_reservation st i).1).reservations, _
        unfold cancel_reservation
        split
        · exact h
        · intro r hr
          exact h r (List.Sublist.mem hr (List.eraseP_sublist _))
  exact key ops (emptyStore rooms) (by simp [emptyStore])

/-- Witness for `reservations_within_one_day` at a concrete one-create
history. -/
theorem reservations_within_one_day_witness :
    (⟨1, 1, "alice", 1065388860, 1065388920⟩ : Reservation) ∈
      (runOps [Op.create 1 "alice" "2025-10-24" "09:00" "10:00"]
        (emptyStore [roomA])).reservations ∧
    ((1065388860 : Nat) / 1440 = 1065388920 / 1440 ∧ (1065388860 : Nat) < 1065388920) :=
  ⟨by decide,
    reservations_within_one_day [roomA] [Op.create 1 "alice" "2025-10-24" "09:00" "10:00"]
      ⟨1, 1, "alice", 1065388860, 1065388920⟩ (by decide)⟩

instance : IsTotal Room (fun a b => a.id ≤ b.id) := ⟨fun a b => Nat.le_total a.id b.id⟩

instance : IsTrans Room (fun a b => a.id ≤ b.id) := ⟨fun _ _ _ => Nat.le_trans⟩

/-- C6: availability completeness — for a parseable date/time and a
positive duration whose interval stays within business hours,
`find_available_rooms` returns exactly the catalog rooms with no
reservation overlapping `[s, s + dur)`, ordered ascending by room id. -/
theorem availability_completeness (st : Store) (d t : String) (dur : Int) (s : Nat)
    (hparse : parse_datetime_jst d t = some s)
    (hdur : 0 < dur)
    (hlo : STARTHOUR * 60 ≤ s % 1440)
    (hhi : s % 1440 + dur.toNat ≤ ENDHOUR * 60) :
    ∃ l, find_available_rooms st d t dur = .ok l ∧
      (∀ info : RoomInfo, info ∈ l ↔ ∃ room ∈ st.rooms,
        info = ⟨room.id, room.name⟩ ∧
        ∀ r ∈ st.reservations,
          ¬(r.room_id = room.id ∧ r.start_time < s + dur.toNat ∧ s < r.end_time)) ∧
      l.Sorted (fun a b => a.id ≤ b.id) := by
  have hguard1 : ¬ dur ≤ 0 := by omega
  have hguard2 : ¬ (s % 1440 < STARTHOUR * 60 ∨ (s + dur.toNat) % 1440 > ENDHOUR * 60) := by
    unfold STARTHOUR ENDHOUR at *
    omega
  have hguard3 : ¬ ¬ (s + dur.toNat > s) := by omega
  simp only [find_available_rooms, if_neg hguard1, hparse, if_neg hguard2, if_neg hguard3]
  refine ⟨_, rfl, ?_, ?_⟩
  · intro info
    simp only [List.mem_map, List.mem_filter]
    constructor
    · rintro ⟨room, ⟨hmem, hpred⟩, rfl⟩
      refine ⟨room, ((List.perm_insertionSort _ st.rooms).mem_iff).mp hmem, rfl, ?_⟩
      rw [Bool.not_eq_true'] at hpred
      intro r hr hcon
      rcases check_conflict_eq_false.mp hpred r hr hcon.1 with h1 | h1 <;> omega
    · rintro ⟨room, hmem, rfl, hnone⟩
      refine ⟨room, ⟨((List.perm_insertionSort _ st.rooms).mem_iff).mpr hmem, ?_⟩, rfl⟩
      rw [Bool.not_eq_true']
      show check_conflict st.reservations room.id s (s + dur.toNat) = false
      rw [check_conflict_eq_false]
      intro r hr hroom
      have := hnone r hr
      by_contra hcon
      push_neg at hcon
      exact this ⟨hroom, by omega, by omega⟩
  · have h1 : (sortRoomsById st.rooms).Sorted (fun a b => a.id ≤ b.id) :=
      List.sorted_insertionSort _ _
    have h2 := h1.filter
      (fun room => !(st.reservations.any fun r =>
        r.room_id == room.id && r.start_time < s + dur.toNat && r.end_time > s))
    rw [List.Sorted, List.pairwise_map]
    exact h2
  

/-- C5 counterexample: for 2025-10-24 21:00 with duration 180 the
resulting interval ends at 24:00, past the 22:00 closing hour, yet
`find_available_rooms` succeeds instead of failing out-of-hours: the
code checks the *wrapped* time-of-day of the end instant. -/
theorem find_available_rooms_out_of_hours_cex :
    parse_datetime_jst "2025-10-24" "21:00" = some 1065389580 ∧
    ENDHOUR * 60 < 1065389580 % 1440 + 180 ∧
    find_available_rooms (emptyStore [roomA]) "2025-10-24" "21:00" 180 = .ok [⟨1, "A"⟩] :=
  ⟨by decide, by decide, rfl⟩

/-- C5 amended: `find_available_rooms` fails with the duration error
for every `duration_minutes <= 0`; and (for positive duration and a
parseable start) it fails out-of-hours exactly when the start
time-of-day is before opening or the *time-of-day of the end instant,
wrapped modulo 24h,* is after closing — intervals crossing midnight
whose wrapped end lands at or before the closing hour are accepted. -/
theorem find_available_rooms_error_conditions (st : Store) (d t : String) (dur : Int) :
    (dur ≤ 0 → find_available_rooms st d t dur = .error .durationErr) ∧
    (∀ s : Nat, 0 < dur → parse_datetime_jst d t = some s →
      (find_available_rooms st d t dur = .error .outOfHours ↔
        (s % 1440 < STARTHOUR * 60 ∨ ENDHOUR * 60 < (s + dur.toNat) % 1440))) := by
  constructor
  · intro h
    simp [find_available_rooms, if_pos h]
  · intro s hdur hparse
    have h1 : ¬ dur ≤ 0 := by omega
    simp only [find_available_rooms, if_neg h1, hparse]
    constructor
    · intro h
      by_contra hcon
      push_neg at hcon
      rw [if_neg (by push_neg; omega :
        ¬(s % 1440 < STARTHOUR * 60 ∨ (s + dur.toNat) % 1440 > ENDHOUR * 60))] at h
      rw [if_neg (by omega : ¬ ¬ (s + dur.toNat > s))] at h
      exact absurd h (by simp)
    · intro h
      have hcond : s % 1440 < STARTHOUR * 60 ∨ (s + dur.toNat) % 1440 > ENDHOUR * 60 := by
        rcases h with h | h
        · exact Or.inl h
        · exact Or.inr h
      rw [if_pos hcond]

/-- Witness for `find_available_rooms_error_conditions` at duration 0
and at an 06:00 start. -/
theorem find_available_rooms_error_conditions_witness :
    find_available_rooms (emptyStore [roomA]) "2025-10-24" "09:00" 0 = .error .durationErr ∧
    find_available_rooms (emptyStore [roomA]) "2025-10-24" "06:00" 30 = .error .outOfHours :=
  ⟨(find_available_rooms_error_conditions (emptyStore [roomA]) "2025-10-24" "09:00" 0).1
      (by decide),
   ((find_available_rooms_error_conditions (emptyStore [roomA]) "2025-10-24" "06:00" 30).2
      1065388680 (by decide) (by decide)).mpr (Or.inl (by decide))⟩

/-- C8 counterexample: the request 06:00 -> 05:00 has parsed start
after parsed end, but fails with the business-hours error, not the
ordering error: the hours check runs first. -/
theorem create_ordering_cex :
    parseHM "06:00" = some (6, 0) ∧ parseHM "05:00" = some (5, 0) ∧
    todOf (5, 0) ≤ todOf (6, 0) ∧
    create_reservation (emptyStore [roomA]) 1 "u" "2025-10-24" "06:00" "05:00" =
      (emptyStore [roomA], .error .outOfHours) :=
  ⟨by decide, by decide, by decide, rfl⟩

/-- C8 amended: a create request with `start >= end` fails with the
ordering error provided the presence check passes and both times lie
within business hours (otherwise the earlier check's error wins). -/
theorem create_ordering_error (st : Store) (rid : Nat) (u d s e : String) (ts te : Nat × Nat)
    (hrid : rid ≠ 0) (hd : d ≠ "")
    (hs : parseHM s = some ts) (he : parseHM e = some te)
    (hlo : STARTHOUR * 60 ≤ todOf ts) (hhi : todOf te ≤ ENDHOUR * 60)
    (hord : todOf te ≤ todOf ts) :
    create_reservation st rid u d s e = (st, .error .ordering) := by
  have hval : validate_reservation_data rid d s e = .vordering := by
    unfold validate_reservation_data
    rw [if_neg (by push_neg; exact ⟨hrid, hd, parseHM_ne_empty hs, parseHM_ne_empty he⟩)]
    simp only [hs, he]
    rw [if_neg (by push_neg; exact ⟨by omega, by omega⟩)]
    rw [if_pos (by omega)]
  unfold create_reservation
  rw [hval]

/-- Witness for `create_ordering_error` at 10:00 -> 09:00. -/
theorem create_ordering_error_witness :
    create_reservation (emptyStore [roomA]) 1 "u" "2025-10-24" "10:00" "09:00" =
      (emptyStore [roomA], .error .ordering) :=
  create_ordering_error (emptyStore [roomA]) 1 "u" "2025-10-24" "10:00" "09:00" (10, 0) (9, 0)
    (by decide) (by decide) (by decide) (by decide) (by decide) (by decide) (by decide)

/-- C3 counterexample: room id 5 resolves to no room in the catalog,
yet create persists the reservation and reports success with room name
"Unknown" — it does not fail with a not-found error. -/
theorem create_unknown_room_cex :
    (emptyStore [roomA]).rooms.find? (fun room => room.id == 5) = none ∧
    create_reservation (emptyStore [roomA]) 5 "alice" "2025-10-24" "09:00" "10:00" =
      (⟨[⟨1, 5, "alice", 1065388860, 1065388920⟩], 2, [roomA]⟩,
        .ok ⟨1, "Unknown", 5, "2025-10-24", "09:00", "10:00", "alice"⟩) :=
  ⟨rfl, rfl⟩

/-- C3 amended: when validation passes and no conflict exists, a
create whose `room_id` matches no catalog room still inserts the
reservation and returns success with room name "Unknown" (no foreign-key
enforcement and no room lookup before the insert). -/
theorem create_unknown_room_succeeds (st : Store) (rid : Nat) (u d s e : String)
    (day : Nat) (ts te : Nat × Nat)
    (hval : validate_reservation_data rid d s e = .vok)
    (hd : parseDate d = some day)
    (hs : parseHM s = some ts) (he : parseHM e = some te)
    (hnc : check_conflict st.reservations rid (day * 1440 + todOf ts)
      (day * 1440 + todOf te) = false)
    (hnf : st.rooms.find? (fun room => room.id == rid) = none) :
    create_reservation st rid u d s e =
      ({ st with
          reservations := st.reservations ++
            [⟨st.nextId, rid, u, day * 1440 + todOf ts, day * 1440 + todOf te⟩],
          nextId := st.nextId + 1 },
       .ok ⟨st.nextId, "Unknown", rid, d, s, e, u⟩) := by
  unfold create_reservation
  rw [hval]
  have hps : parse_datetime_jst d s = some (day * 1440 + todOf ts) := by
    simp [parse_datetime_jst, hd, hs]
  have hpe : parse_datetime_jst d e = some (day * 1440 + todOf te) := by
    simp [parse_datetime_jst, hd, he]
  rw [hps, hpe]
  simp [hnc, hnf]

/-- Witness for `create_unknown_room_succeeds` at room id 5 over a
catalog containing only room 1. -/
theorem create_unknown_room_succeeds_witness :
    create_reservation (emptyStore [roomA]) 5 "bob" "2025-10-24" "13:00" "14:00" =
      (⟨[⟨1, 5, "bob", 739853 * 1440 + todOf (13, 0), 739853 * 1440 + todOf (14, 0)⟩],
          2, [roomA]⟩,
        .ok ⟨1, "Unknown", 5, "2025-10-24", "13:00", "14:00", "bob"⟩) :=
  create_unknown_room_succeeds (emptyStore [roomA]) 5 "bob" "2025-10-24" "13:00" "14:00"
    739853 (13, 0) (14, 0) (by decide) (by decide) (by decide) (by decide) (by decide) (by decide)

def st6 : Store := ⟨[⟨1, 1, "alice", 1065388860, 1065388920⟩], 2, [roomA, roomB]⟩

theorem availability_completeness_witness :
    ∃ l, find_available_rooms st6 "2025-10-24" "09:00" 60 = .ok l ∧
      (∀ info : RoomInfo, info ∈ l ↔ ∃ room ∈ st6.rooms,
        info = ⟨room.id, room.name⟩ ∧
        ∀ r ∈ st6.reservations,
          ¬(r.room_id = room.id ∧ r.start_time < 1065388860 + (60 : Int).toNat ∧
            1065388860 < r.end_time)) ∧
      l.Sorted (fun a b => a.id ≤ b.id) :=
  availability_completeness st6 "2025-10-24" "09:00" 60 1065388860
    (by decide) (by decide) (by decide) (by decide)

def st7 : Store :=
  runOps [Op.create 1 "alice" "2025-10-24" "10:00" "11:00",
          Op.create 1 "bob" "2025-10-24" "09:00" "09:30"] (emptyStore [roomA])

/-- C7 counterexample: with a 10:00 reservation created before a
09:00 one, `get_reservations_by_date` returns them in insertion order
(10:00 first), not ascending by start instant: the query has no
`order_by`. -/
theorem list_by_date_unsorted_cex :
    todOf (9, 0) < todOf (10, 0) ∧
    get_reservations_by_date st7 "2025-10-24" =
      .ok [⟨1, 1, "A", "alice", "10:00", "11:00", "2025-10-24"⟩,
           ⟨2, 1, "A", "bob", "09:00", "09:30", "2025-10-24"⟩] :=
  ⟨by decide, rfl⟩

/-- C7 amended: for a parseable date, `get_reservations_by_date`
returns the day's reservations (start within `[day, day+1)`, room
present) in store order — the ids form a subsequence of the store's
ids — rather than sorted by start instant; the read is deterministic,
so repeated calls with no writes return identical results. -/
theorem list_by_date_store_order (st : Store) (d : String) (day : Nat)
    (hd : parseDate d = some day) :
    ∃ l, get_reservations_by_date st d = .ok l ∧
      List.Sublist (l.map DayEntry.id) (st.reservations.map Reservation.id) ∧
      (∀ r ∈ st.reservations,
        day * 1440 ≤ r.start_time → r.start_time < day * 1440 + 1440 →
        (st.rooms.find? (fun room => room.id == r.room_id)).isSome = true →
        r.id ∈ l.map DayEntry.id) ∧
      (∀ entry ∈ l, ∃ r ∈ st.reservations, r.id = entry.id ∧
        day * 1440 ≤ r.start_time ∧ r.start_time < day * 1440 + 1440) ∧
      (∀ l2, get_reservations_by_date st d = .ok l2 → l2 = l) := by
  have hp : parse_datetime_jst d "00:00" = some (day * 1440) := by
    simp [parse_datetime_jst, hd, show parseHM "00:00" = some (0, 0) from rfl, todOf]
  simp only [get_reservations_by_date, hp]
  refine ⟨_, rfl, ?_, ?_, ?_, ?_⟩
  · rw [List.map_map]
    exact List.Sublist.map _ (List.filter_sublist _)
  · intro r hr h1 h2 h3
    rw [List.map_map]
    refine List.mem_map.mpr ⟨r, ?_, rfl⟩
    rw [List.mem_filter]
    exact ⟨hr, by simp [h1, h2, h3]⟩
  · intro entry hentry
    rw [List.mem_map] at hentry
    obtain ⟨r, hrf, rfl⟩ := hentry
    rw [List.mem_filter] at hrf
    obtain ⟨hr, hcond⟩ := hrf
    simp only [Bool.and_eq_true, decide_eq_true_eq] at hcond
    exact ⟨r, hr, rfl, hcond.1.1, hcond.1.2⟩
  · intro l2 h2
    exact (Except.ok.inj h2).symm

/-- Witness for `list_by_date_store_order` on the two-reservation
store. -/
theorem list_by_date_store_order_witness :
    ∃ l, get_reservations_by_date st7 "2025-10-24" = .ok l ∧
      List.Sublist (l.map DayEntry.id) (st7.reservations.map Reservation.id) ∧
      (∀ r ∈ st7.reservations,
        739853 * 1440 ≤ r.start_time → r.start_time < 739853 * 1440 + 1440 →
        (st7.rooms.find? (fun room => room.id == r.room_id)).isSome = true →
        r.id ∈ l.map DayEntry.id) ∧
      (∀ entry ∈ l, ∃ r ∈ st7.reservations, r.id = entry.id ∧
        739853 * 1440 ≤ r.start_time ∧ r.start_time < 739853 * 1440 + 1440) ∧
      (∀ l2, get_reservations_by_date st7 "2025-10-24" = .ok l2 → l2 = l) :=
  list_by_date_store_order st7 "2025-10-24" 739853 (by decide)

end AIRes
